import Mathlib

/-!
Verification of the apimda runtime adapters
(`packages/runtime-node/src/nodeRuntime.ts` and
`packages/runtime-lambda/src/awsLambdaRuntime.ts`)
against the natural-language specification of the repository.

The TypeScript sources are shallowly embedded below.  JavaScript records
("objects") are modelled as association lists over `String`; `undefined` /
`null` fields become `Option`; thrown exceptions become `Except` values.
Parts of the `@apimda/runtime` package that this repository imports but whose
source is not part of the two adapter files (e.g. `processRequest`,
`statusCodeToDesc`) are marked `Modelled from the spec:` and follow the
specification text.
-/

set_option autoImplicit false

namespace Apimda

/-! ## JavaScript string and record primitives -/

/-- Model of the effect of `String.prototype.toLowerCase` on one (ASCII)
character, as used by the adapters on header names and HTTP methods. -/
def jsCharLower (c : Char) : Char :=
  if 65 ≤ c.toNat ∧ c.toNat ≤ 90 then Char.ofNat (c.toNat + 32) else c

/-- Model of `String.prototype.toUpperCase` on one (ASCII) character. -/
def jsCharUpper (c : Char) : Char :=
  if 97 ≤ c.toNat ∧ c.toNat ≤ 122 then Char.ofNat (c.toNat - 32) else c

/-- Model of `s.toLowerCase()` for ASCII strings. -/
def jsToLower (s : String) : String :=
  String.mk (s.toList.map jsCharLower)

/-- Model of `s.toUpperCase()` for ASCII strings. -/
def jsToUpper (s : String) : String :=
  String.mk (s.toList.map jsCharUpper)

/-- Does the string contain an (ASCII) uppercase letter? -/
def hasUpper (s : String) : Bool :=
  s.toList.any (fun c => 65 ≤ c.toNat ∧ c.toNat ≤ 90)

/-- Index of the first occurrence of `c`, starting at position `i`. -/
def charIndexFrom : List Char → Char → Nat → Option Nat
  | [], _, _ => none
  | x :: xs, c, i => if x = c then some i else charIndexFrom xs c (i + 1)

/-- Model of `s.indexOf(c)`: index of the first occurrence, `-1` if absent. -/
def jsIndexOf (s : String) (c : Char) : Int :=
  match charIndexFrom s.toList c 0 with
  | some i => (i : Int)
  | none => -1

/-- Model of the JavaScript record assignment `m[k] = v`: overwrite the
entry in place when the key is present, append it otherwise (JS objects
preserve insertion order). -/
def recordSet {α : Type} (m : List (String × α)) (k : String) (v : α) :
    List (String × α) :=
  if m.any (fun p => p.1 == k) then
    m.map (fun p => if p.1 == k then (k, v) else p)
  else
    m ++ [(k, v)]

/-! ## Base64, modelling `Buffer.from(s, 'base64')` and `buf.toString('base64')` -/

/-- Value of one base64 alphabet character. -/
def b64Val (c : Char) : Option Nat :=
  if 65 ≤ c.toNat ∧ c.toNat ≤ 90 then some (c.toNat - 65)
  else if 97 ≤ c.toNat ∧ c.toNat ≤ 122 then some (c.toNat - 97 + 26)
  else if 48 ≤ c.toNat ∧ c.toNat ≤ 57 then some (c.toNat - 48 + 52)
  else if c = '+' then some 62
  else if c = '/' then some 63
  else none

/-- Reassemble bytes from a list of sextet values, four at a time. -/
def b64Quads : List Nat → List Nat
  | a :: b :: c :: d :: rest =>
    (a * 4 + b / 16) :: ((b % 16) * 16 + c / 4) :: ((c % 4) * 64 + d) :: b64Quads rest
  | [a, b, c] => [a * 4 + b / 16, (b % 16) * 16 + c / 4]
  | [a, b] => [a * 4 + b / 16]
  | _ => []

/-- Model of node `Buffer.from(s, 'base64')` (on well-formed input):
characters outside the alphabet, including padding, are ignored, and the
remaining sextets are packed into bytes. -/
def base64Decode (s : String) : List Nat :=
  b64Quads (s.toList.filterMap b64Val)

/-- Base64 alphabet character for a sextet value. -/
def b64Char (n : Nat) : Char :=
  if n ≤ 25 then Char.ofNat (65 + n)
  else if n ≤ 51 then Char.ofNat (97 + (n - 26))
  else if n ≤ 61 then Char.ofNat (48 + (n - 52))
  else if n = 62 then '+'
  else '/'

/-- Encode bytes three at a time, with padding. -/
def b64EncodeChunks : List Nat → List Char
  | a :: b :: c :: rest =>
    b64Char (a / 4) :: b64Char ((a % 4) * 16 + b / 16) ::
      b64Char ((b % 16) * 4 + c / 64) :: b64Char (c % 64) :: b64EncodeChunks rest
  | [a, b] => [b64Char (a / 4), b64Char ((a % 4) * 16 + b / 16), b64Char ((b % 16) * 4), '=']
  | [a] => [b64Char (a / 4), b64Char ((a % 4) * 16), '=', '=']
  | [] => []

/-- Model of node `buf.toString('base64')`. -/
def base64Encode (bs : List Nat) : String :=
  String.mk (b64EncodeChunks bs)

/-! ## Data model of the runtime types used by the adapters

`RuntimeInput`, `RuntimeRoute`, `RuntimeController`, `RuntimeApp` and
`RuntimeResult` are declared in the `@apimda/runtime` package; their shapes
follow the fields the adapter sources read plus spec section 3. -/

/-- The six input locations of `RuntimeInput.location` (spec section 3). -/
inductive Location
  | request
  | query
  | path
  | header
  | cookie
  | body
  deriving DecidableEq, Repr

/-- `RuntimeInput`: location, name, declared type name, required flag
(spec section 3; the extractor reads `location`, `name`,
`declaredTypeName`). -/
structure RuntimeInput where
  location : Location
  name : String
  declaredTypeName : String
  required : Bool
  deriving DecidableEq, Repr

/-- A JSON value, the result of the `JSON.parse` builtin. -/
inductive Json
  | null
  | bool (b : Bool)
  | num (n : Int)
  | str (s : String)
  | arr (elems : List Json)
  | obj (fields : List (String × Json))

/-- `APIGatewayProxyEventV2`, restricted to the fields the lambda adapter
reads.  `Option` marks fields the event may lack (`undefined`). -/
structure Event where
  routeKey : String
  queryStringParameters : Option (List (String × String))
  pathParameters : Option (List (String × String))
  headers : Option (List (String × String))
  cookies : Option (List String)
  body : Option String
  isBase64Encoded : Bool
  deriving DecidableEq, Repr

/-- Value returned by `LambdaExtractor.extract`:
`string | Buffer | Event | undefined`, plus parsed JSON for structured
bodies. -/
inductive ExtractValue
  | undefined
  | str (s : String)
  | buffer (bytes : List Nat)
  | event (e : Event)
  | json (j : Json)

/-- Exceptions thrown by the lambda adapter: `HttpError(status, message)`
from `@apimda/runtime`, the `SyntaxError` thrown by `JSON.parse` on
malformed input, and the `TypeError` raised by property access on
`undefined`. -/
inductive JsError
  | httpError (statusCode : Nat) (message : String)
  | jsonParseError
  | typeError
  deriving DecidableEq, Repr

/-- Model of `(obj || {})[name]` for an optional string-valued record:
`undefined` when the record is absent or lacks the key. -/
def jsGetOpt (o : Option (List (String × String))) (k : String) : ExtractValue :=
  match o with
  | none => .undefined
  | some m =>
    match m.lookup k with
    | some v => .str v
    | none => .undefined

/-- The cookie loop of `LambdaExtractor.extract` (awsLambdaRuntime.ts
lines 46-57): scan the event cookie strings in order; for each cookie let
`eqIdx = cookie.indexOf('=')`; when `eqIdx > 0`, split into name and value
and return the value on a name match. -/
def cookieScan : List String → String → ExtractValue
  | [], _ => .undefined
  | c :: rest, name =>
    match charIndexFrom c.toList '=' 0 with
    | some eqIdx =>
      if 0 < eqIdx then
        if name = String.mk (c.toList.take eqIdx) then
          .str (String.mk (c.toList.drop (eqIdx + 1)))
        else cookieScan rest name
      else cookieScan rest name
    | none => cookieScan rest name

/-- `LambdaExtractor.extract` (awsLambdaRuntime.ts lines 35-76).
`jsonParse` stands for the `JSON.parse` builtin; `.error e` models a thrown
exception.  Note `!this.event.body` is JavaScript falsiness: an absent body
and an empty-string body both yield `undefined`. -/
def extract (event : Event) (jsonParse : String → Except Unit Json)
    (input : RuntimeInput) : Except JsError ExtractValue :=
  match input.location with
  | .request => .ok (.event event)
  | .query => .ok (jsGetOpt event.queryStringParameters input.name)
  | .path => .ok (jsGetOpt event.pathParameters input.name)
  | .header => .ok (jsGetOpt event.headers (jsToLower input.name))
  | .cookie =>
    match event.cookies with
    | none => .ok .undefined
    | some cs => .ok (cookieScan cs input.name)
  | .body =>
    match event.body with
    | none => .ok .undefined
    | some b =>
      if b = "" then .ok .undefined
      else if input.declaredTypeName = "string" then .ok (.str b)
      else if input.declaredTypeName = "Buffer" then
        if event.isBase64Encoded then .ok (.buffer (base64Decode b))
        else .error (.httpError 400 "Expected binary input")
      else
        match jsonParse b with
        | .ok j => .ok (.json j)
        | .error _ => .error .jsonParseError

/-! ## Cookie parsing as the specification words it

Spec section 4.3: cookies are a list of `"name=value"` strings; the first
`=` splits the name from the value; extraction returns the value of the
first entry whose name equals the input name. -/

/-- Split one cookie string at its first `=`: name before it, value after
it (the value may itself contain `=`).  `none` when the string has no `=`
and hence no parsed name. -/
def parsedNameVal (c : String) : Option (String × String) :=
  match charIndexFrom c.toList '=' 0 with
  | none => none
  | some i => some (String.mk (c.toList.take i), String.mk (c.toList.drop (i + 1)))

/-- Cookie lookup as the claim states it: value of the first entry whose
parsed name equals the lookup name (comparison definition, following the
spec wording, for the refinement claim about the cookie loop). -/
def specCookieLookup : List String → String → Option String
  | [], _ => none
  | c :: rest, name =>
    match parsedNameVal c with
    | some nv => if nv.1 = name then some nv.2 else specCookieLookup rest name
    | none => specCookieLookup rest name

/-- Cookie lookup as amended: an entry only matches when its parsed name is
nonempty (the source skips cookies whose first `=` is at index 0). -/
def amendedCookieLookup : List String → String → Option String
  | [], _ => none
  | c :: rest, name =>
    match parsedNameVal c with
    | some nv =>
      if nv.1 ≠ "" ∧ nv.1 = name then some nv.2 else amendedCookieLookup rest name
    | none => amendedCookieLookup rest name

/-- The input is absent from the event, per location: the named key is
missing from the relevant map, no cookie entry parses to the input name, or
the body is missing/empty.  A full-request input is never absent. -/
def absentIn (event : Event) (input : RuntimeInput) : Bool :=
  match input.location with
  | .request => false
  | .query => ((event.queryStringParameters.getD []).lookup input.name).isNone
  | .path => ((event.pathParameters.getD []).lookup input.name).isNone
  | .header => ((event.headers.getD []).lookup (jsToLower input.name)).isNone
  | .cookie =>
    (event.cookies.getD []).all fun c =>
      match parsedNameVal c with
      | some nv => nv.1 != input.name
      | none => true
  | .body => event.body.getD "" = ""

/-! ## Spec-modelled parts of the `@apimda/runtime` package

The dispatcher (`processRequest`), `statusCodeToDesc` and the result-shaping
step live in the runtime package, whose source is not among the two adapter
files; they are modelled from the specification text. -/

/-- Modelled from the spec: `statusCodeToDesc` from the runtime package
(not under src/).  Spec section 7: every error outcome carries a stable,
transport-independent textual description for its status code. -/
def statusCodeToDesc (statusCode : Nat) : String :=
  if statusCode = 400 then "Bad Request"
  else if statusCode = 404 then "Not Found"
  else if statusCode = 500 then "Internal Server Error"
  else "Error"

/-- Modelled from the spec: the error classification of the dispatcher
(`processRequest`, runtime package, not under src/).  Spec section 7:
structured HTTP errors keep their status, a malformed structured body is
BadRequest (400), any unclassified fault is Internal (500). -/
def errorStatusOf : JsError → Nat
  | .httpError statusCode _ => statusCode
  | .jsonParseError => 400
  | .typeError => 500

/-! ## Result shaping and the two transport serializations -/

/-- A JavaScript header/cookie value: `string | number | boolean`. -/
inductive HVal
  | str (s : String)
  | num (n : Int)
  | bool (b : Bool)
  deriving DecidableEq, Repr

/-- JavaScript stringification of a header/cookie value, as used by
template literals and `.toString()`. -/
def jsHToString : HVal → String
  | .str s => s
  | .num n => toString n
  | .bool b => if b then "true" else "false"

/-- JavaScript truthiness of a header value: empty string, `0` and `false`
are falsy. -/
def jsTruthyH : HVal → Bool
  | .str s => s ≠ ""
  | .num n => n ≠ 0
  | .bool b => b

/-- Truthiness of a possibly-missing value (`undefined` is falsy). -/
def jsTruthyOpt : Option HVal → Bool
  | none => false
  | some v => jsTruthyH v

/-- A result body: text or binary payload. -/
inductive BodyVal
  | str (s : String)
  | buf (bytes : List Nat)
  deriving DecidableEq, Repr

/-- `RuntimeResult` (runtime package; fields per spec section 3 and the
adapter reads): status code, header record, cookie record, body, binary
flag. -/
structure RuntimeResult where
  statusCode : Nat
  headers : List (String × HVal)
  cookies : List (String × HVal)
  body : BodyVal
  isBinary : Bool
  deriving DecidableEq, Repr

/-- Modelled from the spec: the result-shaping step of the dispatcher
(spec section 4.4 step 6, `processRequest`, runtime package, not under
src/): default Content-Type `application/json` unless an explicit header
entry overrides it; headers otherwise pass through verbatim. -/
def shapeResultHeaders (headers : List (String × HVal)) : List (String × HVal) :=
  if (headers.lookup "Content-Type").isSome then headers
  else headers ++ [("Content-Type", .str "application/json")]

/-- Model of the cast `result.body as Buffer` in `toLambdaResult`. -/
def BodyVal.asBuffer : BodyVal → List Nat
  | .buf bytes => bytes
  | .str s => s.toList.map Char.toNat

/-- Model of the cast `result.body as string` in `toLambdaResult`. -/
def BodyVal.asString : BodyVal → String
  | .str s => s
  | .buf bytes => String.mk (bytes.map Char.ofNat)

/-- `toLambdaCookies` (awsLambdaRuntime.ts lines 14-20): each cookie record
entry becomes one `name=value` string. -/
def toLambdaCookies (cookies : List (String × HVal)) : List String :=
  cookies.map fun p => p.1 ++ "=" ++ jsHToString p.2

/-- `APIGatewayProxyStructuredResultV2`, restricted to the produced fields. -/
structure LambdaRes where
  statusCode : Nat
  headers : List (String × HVal)
  cookies : List String
  body : String
  isBase64Encoded : Bool
  deriving DecidableEq, Repr

/-- `toLambdaResult` (awsLambdaRuntime.ts lines 22-30): headers pass
through verbatim; the body is base64-encoded exactly when the result is
binary. -/
def toLambdaResult (result : RuntimeResult) : LambdaRes :=
  { statusCode := result.statusCode
    headers := result.headers
    cookies := toLambdaCookies result.cookies
    body := if result.isBinary then base64Encode result.body.asBuffer
            else result.body.asString
    isBase64Encoded := result.isBinary }

/-- A node outgoing header value: `string | string[]`. -/
inductive NodeHVal
  | str (s : String)
  | strList (l : List String)
  deriving DecidableEq, Repr

/-- The response written by the node adapter: status line, headers from
`writeHead`, body from `write`. -/
structure NodeResponse where
  statusCode : Nat
  headers : List (String × NodeHVal)
  body : BodyVal
  deriving DecidableEq, Repr

/-- `sendErrorResponse` (nodeRuntime.ts lines 35-39): plain-text body with
the stable description of the status code. -/
def sendErrorResponse (statusCode : Nat) : NodeResponse :=
  { statusCode := statusCode
    headers := [("Content-Type", .str "text/plain")]
    body := .str (statusCodeToDesc statusCode) }

/-- `result.headers[headerName].toString()` as a node header value. -/
def stringifyHeader (v : HVal) : NodeHVal := .str (jsHToString v)

/-- The outgoing header record of `sendResultResponse` (nodeRuntime.ts
lines 41-56): stringify each result header; when
`result.headers['Content-Type']` is falsy, assign Content-Type
`application/json`; when the cookie record is nonempty, assign the
`name=value` strings to `Set-Cookie`. -/
def nodeOutgoingHeaders (result : RuntimeResult) : List (String × NodeHVal) :=
  let outgoing := result.headers.foldl
    (fun acc p => recordSet acc p.1 (stringifyHeader p.2)) []
  let outgoing :=
    if jsTruthyOpt (result.headers.lookup "Content-Type") then outgoing
    else recordSet outgoing "Content-Type" (.str "application/json")
  let cookies := result.cookies.map fun p => p.1 ++ "=" ++ jsHToString p.2
  if !cookies.isEmpty then recordSet outgoing "Set-Cookie" (.strList cookies)
  else outgoing

/-- `sendResultResponse` (nodeRuntime.ts lines 41-60). -/
def sendResultResponse (result : RuntimeResult) : NodeResponse :=
  { statusCode := result.statusCode
    headers := nodeOutgoingHeaders result
    body := result.body }

/-! ## Route tables of the two adapters -/

/-- `RuntimeRoute`: method, path, declared inputs (fields read by the
adapters; spec section 3). -/
structure RuntimeRoute where
  method : String
  path : String
  inputs : List RuntimeInput
  deriving DecidableEq, Repr

/-- `RuntimeController`, restricted to its route list; the class/module
identity and init-hook name feed the instance manager, which is modelled
separately below. -/
structure RuntimeController where
  routes : List RuntimeRoute
  deriving DecidableEq, Repr

/-- `RuntimeApp`: the controllers. -/
structure RuntimeApp where
  controllers : List RuntimeController
  deriving DecidableEq, Repr

/-- The `routesByPath` record of `createAwsLambdaHandler`
(awsLambdaRuntime.ts lines 89-95): key `METHOD path` with the method
upper-cased.  Spec section 3 makes (method, path) pairs unique within an
app, so first-match lookup agrees with JS record assignment. -/
def routesByPath (app : RuntimeApp) : List (String × RuntimeRoute) :=
  app.controllers.flatMap fun c =>
    c.routes.map fun rt => (jsToUpper rt.method ++ " " ++ rt.path, rt)

/-- The handler returned by `createAwsLambdaHandler` (awsLambdaRuntime.ts
lines 97-102).  `processRequest` lives in the runtime package (not under
src/) and is passed as a parameter; the unmatched-route behaviour at issue
happens before it is ever called: `routesByPath[event.routeKey]` yields
`undefined` and the member access `routeInfo.route` throws a `TypeError`. -/
def awsLambdaHandler (app : RuntimeApp)
    (processRequest : Event → RuntimeRoute → RuntimeResult) (event : Event) :
    Except JsError LambdaRes :=
  match (routesByPath app).lookup event.routeKey with
  | none => .error .typeError
  | some route => .ok (toLambdaResult (processRequest event route))

/-- `RouteMatch`: resolved route key plus captured path parameters. -/
structure RouteMatch where
  path : String
  pathParameters : List (String × String)
  deriving DecidableEq, Repr

/-- The incoming node request, restricted to the fields the listener reads
before dispatch. -/
structure NodeRequest where
  url : Option String
  method : Option String
  deriving DecidableEq, Repr

/-- Model of `new URL(u, base).pathname` for a server request target: the
path part before any query or fragment. -/
def urlPathname (u : String) : String :=
  String.mk (u.toList.takeWhile fun c => c ≠ '?' ∧ c ≠ '#')

/-- The request listener returned by `createRequestListener` (nodeRuntime.ts
lines 119-138), up to route matching.  The route matcher implementation
(`routeMatcher.ts`) and the matched-route continuation (body read,
extraction, dispatch) are not under the two source files and are passed as
parameters; the claim at issue only exercises the no-match paths, which the
listener answers itself with `sendErrorResponse(404)`. -/
def nodeListener (matchRoute : String → Option RouteMatch)
    (handleMatched : RouteMatch → NodeRequest → NodeResponse)
    (request : NodeRequest) : NodeResponse :=
  match request.url with
  | none => sendErrorResponse 404
  | some u =>
    if u = "" then sendErrorResponse 404
    else
      let routePath := ((request.method.map jsToLower).getD "") ++ "/" ++ urlPathname u
      match matchRoute routePath with
      | none => sendErrorResponse 404
      | some m => handleMatched m request

/-! ## The controller instance manager (nodeRuntime.ts lines 62-105)

`getInstance` is an async method: it runs synchronously up to each `await`
and yields there.  We model one `getInstance` call as a small program with
two suspension points — `await this.getClass()` (which transitively awaits
the module import) and `await this.instance[initMethodName]()` — and a
system of N concurrent callers as an explicit interleaving of those
segments.  Constructor and init-hook outcomes are per-caller inputs
(`Behavior`); ghost counters record constructions, init-hook invocations
and init-hook completions. -/

/-- Environment-chosen outcome of one caller: whether its `new clazz(args)`
throws and whether its awaited init hook rejects. -/
structure Behavior where
  ctorThrows : Bool
  initThrows : Bool
  deriving DecidableEq, Repr

/-- Program counter of one `getInstance` call.  `done none` models an
exception escaping the call; `done (some i)` a return of instance `i`. -/
inductive CallerPC
  | start
  | resolveClass
  | runInit (selfInst : Nat)
  | done (result : Option Nat)
  deriving DecidableEq, Repr

/-- The fields of `ControllerInstanceManager` (nodeRuntime.ts lines 62-69):
`module`, `instance` (here `inst`), `initialized`. -/
structure MgrState where
  module : Option Unit
  inst : Option Nat
  initialized : Bool
  deriving DecidableEq, Repr

/-- Manager state plus ghost instrumentation: fresh-instance counter and
counts of construction attempts, init-hook invocations and successful
init-hook completions. -/
structure MgrRun where
  mgr : MgrState
  nextId : Nat
  ctorCount : Nat
  initCalls : Nat
  initCompletions : Nat
  deriving DecidableEq, Repr

/-- One synchronous segment of `getInstance` (nodeRuntime.ts lines 76-87):

* `start`: evaluate `if (!this.instance)`; return the cached instance, or
  suspend on `await this.getClass()`;
* `resolveClass`: resume with the class resolved (module now cached), run
  `this.instance = new clazz(args)`, then either return (already
  initialized) or invoke the init hook and suspend on its `await`;
* `runInit`: resume from the init hook: on success set
  `this.initialized = true` and return `this.instance` (the *current*
  field value), on rejection propagate the error. -/
def stepSeg (r : MgrRun) (b : Behavior) : CallerPC → MgrRun × CallerPC
  | .start =>
    match r.mgr.inst with
    | some v => (r, .done (some v))
    | none => (r, .resolveClass)
  | .resolveClass =>
    let r1 := { r with mgr := { r.mgr with module := some () },
                       ctorCount := r.ctorCount + 1 }
    if b.ctorThrows then (r1, .done none)
    else
      let id := r1.nextId
      let r2 := { r1 with nextId := r1.nextId + 1,
                          mgr := { r1.mgr with inst := some id } }
      if r2.mgr.initialized then (r2, .done (some id))
      else ({ r2 with initCalls := r2.initCalls + 1 }, .runInit id)
  | .runInit selfInst =>
    if b.initThrows then (r, .done none)
    else
      let r1 := { r with mgr := { r.mgr with initialized := true },
                         initCompletions := r.initCompletions + 1 }
      (r1, .done (some (r1.mgr.inst.getD selfInst)))
  | .done res => (r, .done res)

/-- N callers racing on one manager: the manager run state plus each
caller's behavior and program counter. -/
structure Sys where
  run : MgrRun
  callers : List (Behavior × CallerPC)
  deriving DecidableEq, Repr

/-- Run one segment of caller `i` (out-of-range indices are no-ops). -/
def stepSys (s : Sys) (i : Nat) : Sys :=
  match s.callers[i]? with
  | none => s
  | some (b, pc) =>
    let next := stepSeg s.run b pc
    { run := next.1, callers := s.callers.set i (b, next.2) }

/-- Run a schedule: a list of caller indices, each entry one segment. -/
def runSched (s : Sys) : List Nat → Sys
  | [] => s
  | i :: rest => runSched (stepSys s i) rest

/-- The manager after its constructor (nodeRuntime.ts lines 67-69):
`initialized` is true exactly when no init method is declared. -/
def initRun (hasInitHook : Bool) : MgrRun :=
  { mgr := { module := none, inst := none, initialized := !hasInitHook }
    nextId := 0, ctorCount := 0, initCalls := 0, initCompletions := 0 }

/-- A fresh system of callers on a fresh manager. -/
def initSys (behaviors : List Behavior) (hasInitHook : Bool) : Sys :=
  { run := initRun hasInitHook
    callers := behaviors.map fun b => (b, .start) }

/-- One *sequential* (non-interleaved) `getInstance` call: run the caller
to completion before anything else observes the manager.  Three segments
always reach `done`. -/
def seqCall (r : MgrRun) (b : Behavior) : MgrRun × Option Nat :=
  let s1 := stepSeg r b .start
  let s2 := stepSeg s1.1 b s1.2
  let s3 := stepSeg s2.1 b s2.2
  match s3.2 with
  | .done res => (s3.1, res)
  | _ => (s3.1, none)

/-- Sequential `getInstance` calls, one caller after the other. -/
def seqCalls : MgrRun → List Behavior → MgrRun × List (Option Nat)
  | r, [] => (r, [])
  | r, b :: bs =>
    let first := seqCall r b
    let rest := seqCalls first.1 bs
    (rest.1, first.2 :: rest.2)

/-- A caller whose constructor and init hook both succeed. -/
def okB : Behavior := ⟨false, false⟩

/-- The result-shaping step applied to a handler result (spec section 4.4
step 6): the headers gain the default Content-Type when absent. -/
def shapeResult (result : RuntimeResult) : RuntimeResult :=
  { result with headers := shapeResultHeaders result.headers }

/-- The extraction outcome the amended cookie claim describes. -/
def amendedCookieExtract (cookies : Option (List String)) (name : String) :
    ExtractValue :=
  match cookies with
  | none => .undefined
  | some cs =>
    match amendedCookieLookup cs name with
    | some v => .str v
    | none => .undefined

/-- A one-controller, one-route app (`get /a`), used as concrete input. -/
def appOneRoute : RuntimeApp := ⟨[⟨[⟨"get", "/a", []⟩]⟩]⟩

/-- An arbitrary concrete instantiation of the dispatcher parameter; the
unmatched-route paths under study never reach it. -/
def prConst : Event → RuntimeRoute → RuntimeResult := fun _ _ =>
  { statusCode := 200, headers := [], cookies := [], body := .str "ok", isBinary := false }

/-- An event carrying only a route key. -/
def eventWithKey (key : String) : Event := ⟨key, none, none, none, none, none, false⟩

/-! ## Helper lemmas -/

theorem toNat_ofNat_small (n : Nat) (h : n < 55296) : (Char.ofNat n).toNat = n := by
  unfold Char.ofNat
  rw [dif_pos (Or.inl h : Nat.isValidChar n)]
  rfl

theorem jsCharLower_not_upper (c : Char) :
    ¬(65 ≤ (jsCharLower c).toNat ∧ (jsCharLower c).toNat ≤ 90) := by
  unfold jsCharLower
  split
  · next h =>
    rw [toNat_ofNat_small (c.toNat + 32) (by omega)]
    omega
  · next h => exact h

theorem hasUpper_jsToLower (s : String) : hasUpper (jsToLower s) = false := by
  unfold hasUpper jsToLower
  rw [show (String.mk (s.toList.map jsCharLower)).toList = s.toList.map jsCharLower from rfl]
  rw [List.any_map]
  rw [List.any_eq_false]
  intro c _
  simpa using jsCharLower_not_upper c

theorem lookup_cons_ite {α : Type} (k a : String) (b : α) (rest : List (String × α)) :
    List.lookup k ((a, b) :: rest) = if k = a then some b else List.lookup k rest := by
  by_cases h : k = a
  · simp [List.lookup_cons, h]
  · have hb : (k == a) = false := beq_eq_false_iff_ne.mpr h
    simp [List.lookup_cons, hb, h]

theorem lookup_none_of_all {α : Type} :
    ∀ (m : List (String × α)) (k : String), (∀ p ∈ m, p.1 ≠ k) → m.lookup k = none
  | [], _, _ => rfl
  | (a, b) :: rest, k, h => by
    rw [lookup_cons_ite, if_neg fun hk => (h (a, b) (by simp)) hk.symm]
    exact lookup_none_of_all rest k fun p hp => h p (by simp [hp])

theorem all_of_lookup_none {α : Type} :
    ∀ (m : List (String × α)) (k : String), m.lookup k = none → ∀ p ∈ m, p.1 ≠ k
  | [], _, _, _, hp => by cases hp
  | (a, b) :: rest, k, h, p, hp => by
    by_cases hk : k = a
    · rw [lookup_cons_ite, if_pos hk] at h; cases h
    · rw [lookup_cons_ite, if_neg hk] at h
      rcases List.mem_cons.mp hp with hpa | hpr
      · subst hpa; exact fun he => hk he.symm
      · exact all_of_lookup_none rest k h p hpr

theorem lookup_append_of_none {α : Type} :
    ∀ (l₁ l₂ : List (String × α)) (k : String), l₁.lookup k = none →
      (l₁ ++ l₂).lookup k = l₂.lookup k
  | [], _, _, _ => rfl
  | (a, b) :: rest, l₂, k, h => by
    by_cases hk : k = a
    · rw [lookup_cons_ite, if_pos hk] at h; cases h
    · rw [lookup_cons_ite, if_neg hk] at h
      rw [List.cons_append, lookup_cons_ite, if_neg hk]
      exact lookup_append_of_none rest l₂ k h

theorem lookup_append_of_some {α : Type} :
    ∀ (l₁ l₂ : List (String × α)) (k : String) (v : α), l₁.lookup k = some v →
      (l₁ ++ l₂).lookup k = some v
  | [], _, _, _, h => by cases h
  | (a, b) :: rest, l₂, k, v, h => by
    by_cases hk : k = a
    · rw [lookup_cons_ite, if_pos hk] at h
      rw [List.cons_append, lookup_cons_ite, if_pos hk]; exact h
    · rw [lookup_cons_ite, if_neg hk] at h
      rw [List.cons_append, lookup_cons_ite, if_neg hk]
      exact lookup_append_of_some rest l₂ k v h

theorem lookup_filter_not_upper {α : Type} :
    ∀ (hs : List (String × α)) (k : String), hasUpper k = false →
      (hs.filter fun p => !hasUpper p.1).lookup k = hs.lookup k
  | [], _, _ => rfl
  | (a, b) :: rest, k, hk => by
    rw [List.filter_cons]
    by_cases ha : hasUpper a = true
    · have hne : ¬ k = a := fun he => by rw [he, ha] at hk; cases hk
      rw [if_neg (by simp [ha])]
      rw [lookup_cons_ite k a b rest, if_neg hne]
      exact lookup_filter_not_upper rest k hk
    · rw [if_pos (by simp at ha ⊢; exact ha)]
      rw [lookup_cons_ite, lookup_cons_ite]
      by_cases hka : k = a
      · rw [if_pos hka, if_pos hka]
      · rw [if_neg hka, if_neg hka]
        exact lookup_filter_not_upper rest k hk

theorem lookup_mapOverwrite_self {α : Type} :
    ∀ (m : List (String × α)) (k : String) (v : α), m.any (fun p => p.1 == k) = true →
      (m.map fun p => if p.1 == k then (k, v) else p).lookup k = some v
  | [], _, _, h => by cases h
  | (a, b) :: rest, k, v, h => by
    rw [List.map_cons]
    by_cases hak : a = k
    · rw [if_pos (beq_iff_eq.mpr hak : ((a, b).1 == k) = true)]
      rw [lookup_cons_ite, if_pos rfl]
    · have hbf : ¬(((a, b).1 == k) = true) := by simp [hak]
      rw [if_neg hbf]
      rw [lookup_cons_ite, if_neg fun he => hak he.symm]
      apply lookup_mapOverwrite_self rest k v
      rw [List.any_cons] at h
      simpa [hak] using h

theorem lookup_mapOverwrite_other {α : Type} :
    ∀ (m : List (String × α)) (k k' : String) (v : α), k' ≠ k →
      (m.map fun p => if p.1 == k then (k, v) else p).lookup k' = m.lookup k'
  | [], _, _, _, _ => rfl
  | (a, b) :: rest, k, k', v, h => by
    rw [List.map_cons]
    by_cases hak : a = k
    · rw [if_pos (beq_iff_eq.mpr hak : ((a, b).1 == k) = true)]
      rw [lookup_cons_ite, lookup_cons_ite]
      rw [if_neg h, if_neg fun he : k' = a => h (he.trans hak)]
      exact lookup_mapOverwrite_other rest k k' v h
    · rw [if_neg (by simp [hak] : ¬(((a, b).1 == k) = true))]
      rw [lookup_cons_ite, lookup_cons_ite]
      by_cases hk'a : k' = a
      · rw [if_pos hk'a, if_pos hk'a]
      · rw [if_neg hk'a, if_neg hk'a]
        exact lookup_mapOverwrite_other rest k k' v h

theorem recordSet_absent {α : Type} (m : List (String × α)) (k : String) (v : α)
    (h : m.lookup k = none) : recordSet m k v = m ++ [(k, v)] := by
  unfold recordSet
  rw [if_neg]
  intro hany
  obtain ⟨p, hp, hpk⟩ := List.any_eq_true.mp hany
  exact all_of_lookup_none m k h p hp (beq_iff_eq.mp hpk)

theorem recordSet_lookup_self {α : Type} (m : List (String × α)) (k : String) (v : α) :
    (recordSet m k v).lookup k = some v := by
  unfold recordSet
  by_cases h : m.any (fun p => p.1 == k) = true
  · rw [if_pos h]
    exact lookup_mapOverwrite_self m k v h
  · rw [if_neg h]
    have hnone : m.lookup k = none := by
      apply lookup_none_of_all
      intro p hp he
      exact h (List.any_eq_true.mpr ⟨p, hp, beq_iff_eq.mpr he⟩)
    rw [lookup_append_of_none m _ k hnone, lookup_cons_ite, if_pos rfl]

theorem recordSet_lookup_other {α : Type} (m : List (String × α)) (k k' : String) (v : α)
    (h : k' ≠ k) : (recordSet m k v).lookup k' = m.lookup k' := by
  unfold recordSet
  by_cases hany : m.any (fun p => p.1 == k) = true
  · rw [if_pos hany]
    exact lookup_mapOverwrite_other m k k' v h
  · rw [if_neg hany]
    cases hv : m.lookup k' with
    | some v' => exact lookup_append_of_some m _ k' v' hv
    | none =>
      rw [lookup_append_of_none m _ k' hv, lookup_cons_ite, if_neg h]
      rfl

theorem assignFold_lookup {α β : Type} (f : α → β) :
    ∀ (l : List (String × α)) (acc : List (String × β)) (k : String),
      (l.map Prod.fst).Nodup → (∀ p ∈ l, acc.lookup p.1 = none) →
      (l.foldl (fun a p => recordSet a p.1 (f p.2)) acc).lookup k =
        (acc.lookup k).or ((l.lookup k).map f)
  | [], acc, k, _, _ => by simp
  | (a, b) :: rest, acc, k, hnd, hdis => by
    rw [List.foldl_cons]
    have hacc : acc.lookup a = none := hdis (a, b) (by simp)
    rw [show recordSet acc (a, b).1 (f (a, b).2) = acc ++ [(a, f b)] from
      recordSet_absent acc a (f b) hacc]
    have hnd0 : a ∉ rest.map Prod.fst ∧ (rest.map Prod.fst).Nodup := by
      rw [List.map_cons] at hnd; exact List.nodup_cons.mp hnd
    have hdis' : ∀ p ∈ rest, (acc ++ [(a, f b)]).lookup p.1 = none := by
      intro p hp
      rw [lookup_append_of_none _ _ _ (hdis p (by simp [hp])), lookup_cons_ite,
        if_neg fun he : p.1 = a => hnd0.1 (he ▸ List.mem_map_of_mem Prod.fst hp)]
      rfl
    rw [assignFold_lookup f rest (acc ++ [(a, f b)]) k hnd0.2 hdis']
    rw [lookup_cons_ite]
    by_cases hka : k = a
    · have h2 : List.lookup k acc = none := by rw [hka]; exact hacc
      rw [if_pos hka]
      rw [lookup_append_of_none _ _ _ h2, lookup_cons_ite, if_pos hka]
      rw [h2]
      rfl
    · rw [if_neg hka]
      cases hv : acc.lookup k with
      | some v' => rw [lookup_append_of_some _ _ _ _ hv]
      | none =>
        rw [lookup_append_of_none _ _ _ hv, lookup_cons_ite, if_neg hka]
        rfl

theorem cookieScan_eq_undefined :
    ∀ (cs : List String) (name : String),
      (cs.all fun c => match parsedNameVal c with
        | some nv => nv.1 != name
        | none => true) = true →
      cookieScan cs name = .undefined
  | [], _, _ => rfl
  | c :: rest, name, h => by
    rw [List.all_cons, Bool.and_eq_true] at h
    cases hidx : charIndexFrom c.toList '=' 0 with
    | none =>
      simp only [cookieScan, hidx]
      exact cookieScan_eq_undefined rest name h.2
    | some i =>
      simp only [cookieScan, hidx]
      by_cases hi : 0 < i
      · rw [if_pos hi]
        have hpn : parsedNameVal c =
            some (String.mk (c.toList.take i), String.mk (c.toList.drop (i + 1))) := by
          simp only [parsedNameVal, hidx]
        have h1 := h.1
        rw [hpn] at h1
        have hne : ¬ name = String.mk (c.toList.take i) :=
          fun he => (bne_iff_ne.mp h1) he.symm
        rw [if_neg hne]
        exact cookieScan_eq_undefined rest name h.2
      · rw [if_neg hi]
        exact cookieScan_eq_undefined rest name h.2

theorem cookieScan_eq_amended :
    ∀ (cs : List String) (name : String),
      cookieScan cs name = (match amendedCookieLookup cs name with
        | some v => ExtractValue.str v
        | none => .undefined)
  | [], _ => rfl
  | c :: rest, name => by
    cases hidx : charIndexFrom c.toList '=' 0 with
    | none =>
      simp only [cookieScan, amendedCookieLookup, parsedNameVal, hidx]
      exact cookieScan_eq_amended rest name
    | some i =>
      simp only [cookieScan, amendedCookieLookup, parsedNameVal, hidx]
      have hnil : c.toList ≠ [] := by
        intro he; rw [he] at hidx; cases hidx
      by_cases hi : 0 < i
      · rw [if_pos hi]
        have hne : String.mk (c.toList.take i) ≠ "" := by
          intro he
          have hl : c.toList.take i = [] := congrArg String.toList he
          cases hc : c.toList with
          | nil => exact hnil hc
          | cons x xs =>
            obtain ⟨m, hm⟩ := Nat.exists_eq_succ_of_ne_zero (Nat.pos_iff_ne_zero.mp hi)
            rw [hc, hm] at hl
            cases hl
        by_cases hnm : name = String.mk (c.toList.take i)
        · rw [if_pos hnm, if_pos ⟨hne, hnm.symm⟩]
        · rw [if_neg hnm, if_neg fun hc => hnm hc.2.symm]
          exact cookieScan_eq_amended rest name
      · rw [if_neg hi]
        have hi0 : i = 0 := by omega
        rw [if_neg fun hc => hc.1 (by rw [hi0]; rfl)]
        exact cookieScan_eq_amended rest name

/-! ## The claims -/

/-- C4: for a body input declared `Buffer` with a non-empty transported
body, extraction throws `HttpError(400, "Expected binary input")` when the
event is not flagged base64-encoded, and returns the base64-decoded bytes
when it is (awsLambdaRuntime.ts lines 66-71). -/
theorem c4_binary_body (event : Event) (jsonParse : String → Except Unit Json)
    (input : RuntimeInput) (b : String)
    (hloc : input.location = .body) (hty : input.declaredTypeName = "Buffer")
    (hb : event.body = some b) (hne : b ≠ "") :
    (event.isBase64Encoded = false →
      extract event jsonParse input = .error (.httpError 400 "Expected binary input")) ∧
    (event.isBase64Encoded = true →
      extract event jsonParse input = .ok (.buffer (base64Decode b))) := by
  constructor <;> intro hflag <;> simp [extract, hloc, hb, hty, hne, hflag]

/-- Witness for C4 at concrete inputs: one event delivering `TWFu` without
the base64 flag (rejected with 400) and one with it (decoded to
`Man` = bytes 77, 97, 110). -/
theorem c4_binary_body_witness :
    extract (Event.mk "" none none none none (some "TWFu") false) (fun _ => .error ())
        ⟨.body, "data", "Buffer", true⟩ = .error (.httpError 400 "Expected binary input") ∧
    extract (Event.mk "" none none none none (some "TWFu") true) (fun _ => .error ())
        ⟨.body, "data", "Buffer", true⟩ = .ok (.buffer (base64Decode "TWFu")) ∧
    base64Decode "TWFu" = [77, 97, 110] :=
  ⟨(c4_binary_body _ _ _ "TWFu" rfl rfl rfl (by decide)).1 rfl,
   (c4_binary_body _ _ _ "TWFu" rfl rfl rfl (by decide)).2 rfl,
   by decide⟩

/-- C5: for a non-empty body, declared type `string` returns the raw text
body unchanged; any declared type other than `string` and `Buffer` parses
the body text with `JSON.parse`, returning the parsed value on success and
throwing on malformed text (awsLambdaRuntime.ts lines 59-72); the
dispatcher classifies that parse failure as a 400 client error
(spec-modelled `errorStatusOf`). -/
theorem c5_body_parsing (event : Event) (jsonParse : String → Except Unit Json)
    (input : RuntimeInput) (b : String)
    (hloc : input.location = .body) (hb : event.body = some b) (hne : b ≠ "") :
    (input.declaredTypeName = "string" → extract event jsonParse input = .ok (.str b)) ∧
    (input.declaredTypeName ≠ "string" → input.declaredTypeName ≠ "Buffer" →
      (∀ j, jsonParse b = .ok j → extract event jsonParse input = .ok (.json j)) ∧
      (jsonParse b = .error () → extract event jsonParse input = .error .jsonParseError ∧
        errorStatusOf .jsonParseError = 400)) := by
  refine ⟨fun hty => by simp [extract, hloc, hb, hne, hty], fun hty1 hty2 => ⟨?_, ?_⟩⟩
  · intro j hj
    simp [extract, hloc, hb, hne, hty1, hty2, hj]
  · intro hj
    exact ⟨by simp [extract, hloc, hb, hne, hty1, hty2, hj], rfl⟩

/-- Witness for C5 at concrete inputs: a raw text body for declared type
`string`, and a malformed structured body for another declared type. -/
theorem c5_body_parsing_witness :
    extract (Event.mk "" none none none none (some "hello") false) (fun _ => .error ())
        ⟨.body, "data", "string", true⟩ = .ok (.str "hello") ∧
    (extract (Event.mk "" none none none none (some "oops") false) (fun _ => .error ())
        ⟨.body, "data", "MyDto", true⟩ = .error .jsonParseError ∧
      errorStatusOf .jsonParseError = 400) :=
  ⟨(c5_body_parsing _ _ _ "hello" rfl rfl (by decide)).1 rfl,
   ((c5_body_parsing (Event.mk "" none none none none (some "oops") false)
        (fun _ => .error ()) ⟨.body, "data", "MyDto", true⟩ "oops" rfl rfl
        (by decide)).2 (by decide) (by decide)).2 rfl⟩

/-- C8: extraction of an input that is absent from the event returns
`undefined` at every location and throws nothing; the extractor never
reads the `required` flag, so flagging a missing required input is left
entirely to validation (awsLambdaRuntime.ts lines 35-76). -/
theorem c8_absent_undefined :
    (∀ (event : Event) (jsonParse : String → Except Unit Json) (input : RuntimeInput),
      absentIn event input = true → extract event jsonParse input = .ok .undefined) ∧
    (∀ (event : Event) (jsonParse : String → Except Unit Json) (loc : Location)
      (name dtn : String) (r₁ r₂ : Bool),
      extract event jsonParse ⟨loc, name, dtn, r₁⟩ =
        extract event jsonParse ⟨loc, name, dtn, r₂⟩) := by
  constructor
  · intro event jp input h
    rcases input with ⟨loc, name, dtn, req⟩
    cases loc
    case request => cases h
    case query =>
      cases hq : event.queryStringParameters with
      | none => simp [extract, jsGetOpt, hq]
      | some m =>
        rw [show absentIn event ⟨.query, name, dtn, req⟩ =
          ((event.queryStringParameters.getD []).lookup name).isNone from rfl, hq] at h
        have hm : m.lookup name = none := Option.isNone_iff_eq_none.mp (by simpa using h)
        simp [extract, jsGetOpt, hq, hm]
    case path =>
      cases hq : event.pathParameters with
      | none => simp [extract, jsGetOpt, hq]
      | some m =>
        rw [show absentIn event ⟨.path, name, dtn, req⟩ =
          ((event.pathParameters.getD []).lookup name).isNone from rfl, hq] at h
        have hm : m.lookup name = none := Option.isNone_iff_eq_none.mp (by simpa using h)
        simp [extract, jsGetOpt, hq, hm]
    case header =>
      cases hq : event.headers with
      | none => simp [extract, jsGetOpt, hq]
      | some m =>
        rw [show absentIn event ⟨.header, name, dtn, req⟩ =
          ((event.headers.getD []).lookup (jsToLower name)).isNone from rfl, hq] at h
        have hm : m.lookup (jsToLower name) = none :=
          Option.isNone_iff_eq_none.mp (by simpa using h)
        simp [extract, jsGetOpt, hq, hm]
    case cookie =>
      cases hc : event.cookies with
      | none => simp [extract, hc]
      | some cs =>
        rw [show absentIn event ⟨.cookie, name, dtn, req⟩ =
          ((event.cookies.getD []).all fun c => match parsedNameVal c with
            | some nv => nv.1 != name
            | none => true) from rfl, hc] at h
        simp [extract, hc, cookieScan_eq_undefined cs name (by simpa using h)]
    case body =>
      cases hb : event.body with
      | none => simp [extract, hb]
      | some b =>
        rw [show absentIn event ⟨.body, name, dtn, req⟩ =
          decide (event.body.getD "" = "") from rfl, hb] at h
        have : b = "" := by simpa using h
        simp [extract, hb, this]
  · intro event jp loc name dtn r₁ r₂
    cases loc <;> rfl

/-- Witness for C8: a query input whose name is missing from the query map
of a concrete event extracts to `undefined`. -/
theorem c8_absent_undefined_witness :
    extract (Event.mk "GET /a" (some [("x", "1")]) none none none none false)
        (fun _ => .error ()) ⟨.query, "missing", "string", true⟩ = .ok .undefined :=
  c8_absent_undefined.1 _ _ _ rfl

/-- C10: header extraction looks up the lower-cased input name in the
event header map (awsLambdaRuntime.ts line 44): the extracted value is
exactly the map entry at the lower-cased name, input names differing only
in letter case extract the same value, and entries whose stored key
contains an uppercase letter can never be found (dropping them does not
change any extraction). -/
theorem c10_header_lowercase :
    (∀ (event : Event) (jsonParse : String → Except Unit Json) (input : RuntimeInput),
      input.location = .header →
      extract event jsonParse input = .ok (jsGetOpt event.headers (jsToLower input.name))) ∧
    (∀ (event : Event) (jsonParse : String → Except Unit Json) (i₁ i₂ : RuntimeInput),
      i₁.location = .header → i₂.location = .header →
      jsToLower i₁.name = jsToLower i₂.name →
      extract event jsonParse i₁ = extract event jsonParse i₂) ∧
    (∀ (event : Event) (jsonParse : String → Except Unit Json) (input : RuntimeInput)
      (hs : List (String × String)),
      input.location = .header → event.headers = some hs →
      extract event jsonParse input =
        extract { event with headers := some (hs.filter fun p => !hasUpper p.1) }
          jsonParse input) := by
  have h1 : ∀ (event : Event) (jsonParse : String → Except Unit Json)
      (input : RuntimeInput), input.location = .header →
      extract event jsonParse input = .ok (jsGetOpt event.headers (jsToLower input.name)) := by
    intro event jp input hloc
    simp [extract, hloc]
  refine ⟨h1, fun event jp i₁ i₂ hl₁ hl₂ hn => ?_, fun event jp input hs hloc hh => ?_⟩
  · rw [h1 event jp i₁ hl₁, h1 event jp i₂ hl₂, hn]
  · rw [h1 _ _ _ hloc, h1 _ _ _ hloc]
    rw [hh]
    simp only [jsGetOpt]
    rw [lookup_filter_not_upper hs (jsToLower input.name) (hasUpper_jsToLower input.name)]

/-- Witness for C10: a mixed-case input name finds the value stored under
the lower-cased key of a concrete event. -/
theorem c10_header_lowercase_witness :
    extract (Event.mk "" none none (some [("x-api-key", "k")]) none none false)
        (fun _ => .error ()) ⟨.header, "X-Api-Key", "string", false⟩ =
      .ok (jsGetOpt (some [("x-api-key", "k")]) (jsToLower "X-Api-Key")) :=
  c10_header_lowercase.1 _ _ _ rfl

/-- C7 counterexample: for the cookie entry `=v` (first `=` at index 0,
so its parsed name is the empty string) and an input named by that parsed
name, the lookup described by the claim returns `v`, but the extractor
returns `undefined`, because the source only accepts entries whose first
`=` is at a positive index (`if (eqIdx > 0)`, awsLambdaRuntime.ts line
49). -/
theorem c7_counterexample :
    specCookieLookup ["=v"] "" = some "v" ∧
    extract (Event.mk "" none none none (some ["=v"]) none false) (fun _ => .error ())
        ⟨.cookie, "", "string", false⟩ = .ok .undefined :=
  ⟨rfl, rfl⟩

/-- C7 amended: cookie extraction returns the value of the first entry
whose parsed name (the part before the first `=`) is *nonempty* and equals
the input name — entries with no `=` or with `=` first are skipped — and
`undefined` when no entry matches or the event carries no cookie list
(awsLambdaRuntime.ts lines 45-58). -/
theorem c7_amended (event : Event) (jsonParse : String → Except Unit Json)
    (input : RuntimeInput) (hloc : input.location = .cookie) :
    extract event jsonParse input = .ok (amendedCookieExtract event.cookies input.name) := by
  cases hc : event.cookies with
  | none => simp [extract, hloc, hc, amendedCookieExtract]
  | some cs =>
    simp [extract, hloc, hc, amendedCookieExtract, cookieScan_eq_amended cs input.name]

/-- Witness for C7 amended: the value of cookie `sid` is found in a
concrete list (and may itself contain `=`). -/
theorem c7_amended_witness :
    extract (Event.mk "" none none none (some ["t", "sid=abc=def"]) none false)
        (fun _ => .error ()) ⟨.cookie, "sid", "string", false⟩ =
      .ok (amendedCookieExtract (some ["t", "sid=abc=def"]) "sid") :=
  c7_amended _ _ _ rfl

/-- C2 counterexample: with the single registered route `get /a`, the
lambda handler applied to an event whose route key `GET /b` matches no
route does not produce a 404 result: `routesByPath[event.routeKey]` is
`undefined` and the member access `routeInfo.route` throws a `TypeError`
(awsLambdaRuntime.ts lines 98-100). -/
theorem c2_counterexample :
    (routesByPath appOneRoute).lookup "GET /b" = none ∧
    awsLambdaHandler appOneRoute prConst (eventWithKey "GET /b") = .error .typeError := by
  constructor
  · rfl
  · rfl

/-- C2 amended: on a (method, path) that matches no registered route the
*node* adapter answers 404 with the stable not-found description
(nodeRuntime.ts lines 126-130), while the *lambda* adapter faults with a
`TypeError` instead of producing any result (awsLambdaRuntime.ts lines
98-100). -/
theorem c2_amended :
    (∀ (matchRoute : String → Option RouteMatch)
      (handleMatched : RouteMatch → NodeRequest → NodeResponse)
      (request : NodeRequest) (u : String),
      request.url = some u → u ≠ "" →
      matchRoute (((request.method.map jsToLower).getD "") ++ "/" ++ urlPathname u) = none →
      nodeListener matchRoute handleMatched request = sendErrorResponse 404 ∧
      (sendErrorResponse 404).statusCode = 404 ∧
      (sendErrorResponse 404).body = .str (statusCodeToDesc 404) ∧
      statusCodeToDesc 404 = "Not Found") ∧
    (∀ (app : RuntimeApp) (processRequest : Event → RuntimeRoute → RuntimeResult)
      (event : Event), (routesByPath app).lookup event.routeKey = none →
      awsLambdaHandler app processRequest event = .error .typeError) := by
  constructor
  · intro matchRoute handleMatched request u hurl hne hmatch
    refine ⟨?_, rfl, rfl, rfl⟩
    simp [nodeListener, hurl, hne, hmatch]
  · intro app pr event h
    simp [awsLambdaHandler, h]

/-- Witness for C2 amended at concrete inputs: a matcher with no routes
answers 404 on the node side; the one-route app faults on an unmatched
lambda route key. -/
theorem c2_amended_witness :
    nodeListener (fun _ => none) (fun _ _ => sendErrorResponse 500)
        ⟨some "/nope", some "GET"⟩ = sendErrorResponse 404 ∧
    awsLambdaHandler appOneRoute prConst (eventWithKey "POST /a") = .error .typeError :=
  ⟨(c2_amended.1 (fun _ => none) (fun _ _ => sendErrorResponse 500)
      ⟨some "/nope", some "GET"⟩ "/nope" rfl (by decide) rfl).1,
   c2_amended.2 appOneRoute prConst (eventWithKey "POST /a") (by decide)⟩

/-- C1 counterexample: two callers, both with succeeding constructor and
init hook, interleaved at the `await` points of `getInstance`
(schedule 0,1,0,1,0,1: both callers pass the `if (!this.instance)` check
before either constructs), complete with TWO constructions and TWO
init-hook executions — not exactly one of each as the claim states
(nodeRuntime.ts lines 76-87). -/
theorem c1_counterexample :
    (runSched (initSys [okB, okB] true) [0, 1, 0, 1, 0, 1]).run.ctorCount = 2 ∧
    (runSched (initSys [okB, okB] true) [0, 1, 0, 1, 0, 1]).run.initCalls = 2 ∧
    (runSched (initSys [okB, okB] true) [0, 1, 0, 1, 0, 1]).callers =
      [(okB, .done (some 1)), (okB, .done (some 1))] ∧
    ¬((runSched (initSys [okB, okB] true) [0, 1, 0, 1, 0, 1]).run.ctorCount = 1 ∧
      (runSched (initSys [okB, okB] true) [0, 1, 0, 1, 0, 1]).run.initCalls = 1) := by
  decide

theorem seqCall_cached (r : MgrRun) (b : Behavior) (v : Nat) (h : r.mgr.inst = some v) :
    seqCall r b = (r, some v) := by
  simp [seqCall, stepSeg, h]

theorem seqCalls_cached :
    ∀ (bs : List Behavior) (r : MgrRun) (v : Nat), r.mgr.inst = some v →
      seqCalls r bs = (r, List.replicate bs.length (some v))
  | [], r, v, h => by simp [seqCalls]
  | b :: bs, r, v, h => by
    simp only [seqCalls, seqCall_cached r b v h, seqCalls_cached bs r v h,
      List.length_cons, List.replicate_succ]

/-- C1 amended: when `getInstance()` is invoked by N ≥ 1 callers
*sequentially* (each call completes before the next begins), exactly one
construction and exactly one init-hook execution occur, and every caller
receives the same fully-initialized instance (nodeRuntime.ts lines 76-87;
the interleaved claim fails, see the counterexample). -/
theorem c1_amended (n : Nat) (hn : 1 ≤ n) :
    (seqCalls (initRun true) (List.replicate n okB)).1.ctorCount = 1 ∧
    (seqCalls (initRun true) (List.replicate n okB)).1.initCalls = 1 ∧
    (seqCalls (initRun true) (List.replicate n okB)).2 = List.replicate n (some 0) := by
  obtain ⟨m, rfl⟩ : ∃ m, n = m + 1 := ⟨n - 1, by omega⟩
  rw [List.replicate_succ]
  have hfirst : seqCall (initRun true) okB =
      ({ mgr := { module := some (), inst := some 0, initialized := true },
         nextId := 1, ctorCount := 1, initCalls := 1, initCompletions := 1 }, some 0) := by
    rfl
  simp only [seqCalls, hfirst]
  rw [seqCalls_cached (List.replicate m okB) _ 0 rfl]
  simp [List.replicate_succ]

/-- Witness for C1 amended at two sequential callers. -/
theorem c1_amended_witness :
    (seqCalls (initRun true) (List.replicate 2 okB)).1.ctorCount = 1 ∧
    (seqCalls (initRun true) (List.replicate 2 okB)).1.initCalls = 1 ∧
    (seqCalls (initRun true) (List.replicate 2 okB)).2 = List.replicate 2 (some 0) :=
  c1_amended 2 (by decide)

/-- C3 counterexample: the first caller's init hook rejects (`getInstance`
propagates the error), yet the second, later call returns the cached
instance with NO new initialization attempt (`initCalls` still 1) and no
init-hook completion at all — a partially-initialized instance, contrary
to the claim that a later call re-attempts initialization
(nodeRuntime.ts lines 76-87: `this.instance` is already set, so the whole
guarded block is skipped). -/
theorem c3_counterexample :
    (seqCalls (initRun true) [⟨false, true⟩, okB]).2 = [none, some 0] ∧
    (seqCalls (initRun true) [⟨false, true⟩, okB]).1.initCalls = 1 ∧
    (seqCalls (initRun true) [⟨false, true⟩, okB]).1.initCompletions = 0 ∧
    (seqCalls (initRun true) [⟨false, true⟩, okB]).1.mgr.initialized = false := by
  decide

theorem stepSys_init_invariant (s : Sys) (i : Nat)
    (h : s.run.mgr.initialized = true → 1 ≤ s.run.initCompletions) :
    (stepSys s i).run.mgr.initialized = true → 1 ≤ (stepSys s i).run.initCompletions := by
  unfold stepSys
  cases hci : s.callers[i]? with
  | none => exact h
  | some bp =>
    rcases bp with ⟨b, pc⟩
    cases pc with
    | start =>
      cases hv : s.run.mgr.inst <;> simp [stepSeg, hv] <;> exact h
    | resolveClass =>
      by_cases hct : b.ctorThrows
      · simp [stepSeg, hct]; exact h
      · by_cases hin : s.run.mgr.initialized
        · simp [stepSeg, hct, hin]
          exact h hin
        · simp [stepSeg, hct, hin]
    | runInit si =>
      by_cases hit : b.initThrows
      · simp [stepSeg, hit]; exact h
      · simp [stepSeg, hit]
    | done res => simp [stepSeg]; exact h

theorem runSched_init_invariant :
    ∀ (sched : List Nat) (s : Sys),
      (s.run.mgr.initialized = true → 1 ≤ s.run.initCompletions) →
      ((runSched s sched).run.mgr.initialized = true →
        1 ≤ (runSched s sched).run.initCompletions)
  | [], _, h => h
  | i :: rest, s, h =>
    runSched_init_invariant rest (stepSys s i) (stepSys_init_invariant s i h)

/-- C3 amended: (a) the manager becomes `initialized` only through a
successful init-hook completion, under every schedule and every choice of
constructor/init outcomes; (b) after a *construction* failure the instance
field stays unset and a later call re-attempts construction and
initialization successfully; (c) after an *init-hook* failure the
constructed instance stays cached, and a later call returns it with no new
initialization attempt — i.e. partially initialized (nodeRuntime.ts lines
76-87). -/
theorem c3_amended :
    (∀ (behaviors : List Behavior) (sched : List Nat),
      (runSched (initSys behaviors true) sched).run.mgr.initialized = true →
      1 ≤ (runSched (initSys behaviors true) sched).run.initCompletions) ∧
    ((seqCalls (initRun true) [⟨true, false⟩, okB]).2 = [none, some 0] ∧
      (seqCalls (initRun true) [⟨true, false⟩, okB]).1.ctorCount = 2 ∧
      (seqCalls (initRun true) [⟨true, false⟩, okB]).1.initCompletions = 1) ∧
    ((seqCalls (initRun true) [⟨false, true⟩, okB]).2 = [none, some 0] ∧
      (seqCalls (initRun true) [⟨false, true⟩, okB]).1.initCalls = 1 ∧
      (seqCalls (initRun true) [⟨false, true⟩, okB]).1.mgr.initialized = false) := by
  refine ⟨fun behaviors sched => runSched_init_invariant sched _ ?_, by decide, by decide⟩
  intro h0
  exact absurd h0 (by simp [initSys, initRun])

/-- Witness for C3 amended: a completed successful run is `initialized`,
so part (a) yields at least one init completion there. -/
theorem c3_amended_witness :
    1 ≤ (runSched (initSys [okB] true) [0, 0, 0]).run.initCompletions :=
  c3_amended.1 [okB] [0, 0, 0] (by decide)

theorem nodeOutgoing_lookup_ct (result : RuntimeResult)
    (hnd : (result.headers.map Prod.fst).Nodup) :
    (nodeOutgoingHeaders result).lookup "Content-Type" =
      if jsTruthyOpt (result.headers.lookup "Content-Type") then
        (result.headers.lookup "Content-Type").map stringifyHeader
      else some (.str "application/json") := by
  unfold nodeOutgoingHeaders
  have h1 : (result.headers.foldl
      (fun acc p => recordSet acc p.1 (stringifyHeader p.2)) []).lookup "Content-Type" =
      (result.headers.lookup "Content-Type").map stringifyHeader := by
    rw [assignFold_lookup stringifyHeader result.headers [] "Content-Type" hnd
      (fun p _ => rfl)]
    rfl
  have h3 : ∀ m : List (String × NodeHVal),
      (if !(result.cookies.map fun p => p.1 ++ "=" ++ jsHToString p.2).isEmpty then
        recordSet m "Set-Cookie"
          (.strList (result.cookies.map fun p => p.1 ++ "=" ++ jsHToString p.2))
      else m).lookup "Content-Type" = m.lookup "Content-Type" := by
    intro m
    by_cases hc : (result.cookies.map fun p => p.1 ++ "=" ++ jsHToString p.2).isEmpty
    · rw [hc]; rfl
    · rw [show (!(result.cookies.map fun p => p.1 ++ "=" ++ jsHToString p.2).isEmpty) = true by
        simp [hc]]
      rw [if_pos rfl]
      exact recordSet_lookup_other m "Set-Cookie" "Content-Type" _ (by decide)
  rw [h3]
  by_cases ht : jsTruthyOpt (result.headers.lookup "Content-Type") = true
  · rw [if_pos ht, if_pos ht]
    exact h1
  · rw [if_neg ht, if_neg ht]
    exact recordSet_lookup_self _ "Content-Type" _

/-- C6 counterexample: a handler result carrying the *explicit* header
entry Content-Type `""` (a falsy value).  After result shaping, the node
adapter replaces it with `application/json` (the falsy check
`!result.headers['Content-Type']`, nodeRuntime.ts line 46), while the
lambda adapter passes it through verbatim — so the explicit header does
not pass through on node, and the two transports disagree. -/
theorem c6_counterexample :
    (nodeOutgoingHeaders (shapeResult
        { statusCode := 200, headers := [("Content-Type", HVal.str "")], cookies := [],
          body := .str "x", isBinary := false })).lookup "Content-Type" =
      some (.str "application/json") ∧
    (toLambdaResult (shapeResult
        { statusCode := 200, headers := [("Content-Type", HVal.str "")], cookies := [],
          body := .str "x", isBinary := false })).headers.lookup "Content-Type" =
      some (HVal.str "") ∧
    ("" : String) ≠ "application/json" :=
  ⟨rfl, rfl, by decide⟩

/-- C6 amended: after the dispatcher's result-shaping step (spec-modelled
`shapeResult`), a handler result with no explicit Content-Type entry goes
out with Content-Type `application/json` on both transports; an explicit
entry with a *truthy* value (e.g. any non-empty string) passes through on
both transports (the node adapter stringifies it, the lambda adapter keeps
it verbatim).  A falsy explicit value is replaced by `application/json` on
node only, see the counterexample (nodeRuntime.ts lines 41-48,
awsLambdaRuntime.ts lines 22-30). -/
theorem c6_amended (result : RuntimeResult)
    (hnd : (result.headers.map Prod.fst).Nodup) :
    (result.headers.lookup "Content-Type" = none →
      (nodeOutgoingHeaders (shapeResult result)).lookup "Content-Type" =
        some (.str "application/json") ∧
      (toLambdaResult (shapeResult result)).headers.lookup "Content-Type" =
        some (.str "application/json")) ∧
    (∀ v, result.headers.lookup "Content-Type" = some v → jsTruthyH v = true →
      (nodeOutgoingHeaders (shapeResult result)).lookup "Content-Type" =
        some (stringifyHeader v) ∧
      (toLambdaResult (shapeResult result)).headers.lookup "Content-Type" = some v) := by
  constructor
  · intro hnone
    have hsh : (shapeResult result).headers =
        result.headers ++ [("Content-Type", HVal.str "application/json")] := by
      simp [shapeResult, shapeResultHeaders, hnone]
    have hlk : (shapeResult result).headers.lookup "Content-Type" =
        some (HVal.str "application/json") := by
      rw [hsh, lookup_append_of_none _ _ _ hnone, lookup_cons_ite, if_pos rfl]
    constructor
    · have hnd' : ((shapeResult result).headers.map Prod.fst).Nodup := by
        rw [hsh, List.map_append]
        refine List.Nodup.append hnd (by simp) ?_
        intro x hx hy
        simp at hy
        obtain ⟨p, hp, hpx⟩ := List.mem_map.mp hx
        exact all_of_lookup_none result.headers "Content-Type" hnone p hp (hpx.trans hy)
      rw [nodeOutgoing_lookup_ct (shapeResult result) hnd', hlk]
      rfl
    · exact hlk
  · intro v hv htr
    have hsh : (shapeResult result).headers = result.headers := by
      simp [shapeResult, shapeResultHeaders, hv]
    constructor
    · have hnd' : ((shapeResult result).headers.map Prod.fst).Nodup := by
        rw [hsh]; exact hnd
      rw [nodeOutgoing_lookup_ct (shapeResult result) hnd', hsh, hv]
      simp [jsTruthyOpt, htr]
    · rw [show (toLambdaResult (shapeResult result)).headers =
        (shapeResult result).headers from rfl, hsh]
      exact hv

/-- Witness for C6 amended: a result with headers `X-Test: 1` and no
Content-Type goes out as `application/json` on both transports; an
explicit `text/html` passes through on both. -/
theorem c6_amended_witness :
    ((nodeOutgoingHeaders (shapeResult
        { statusCode := 200, headers := [("X-Test", HVal.str "1")], cookies := [],
          body := .str "x", isBinary := false })).lookup "Content-Type" =
      some (.str "application/json") ∧
    (toLambdaResult (shapeResult
        { statusCode := 200, headers := [("X-Test", HVal.str "1")], cookies := [],
          body := .str "x", isBinary := false })).headers.lookup "Content-Type" =
      some (.str "application/json")) ∧
    ((nodeOutgoingHeaders (shapeResult
        { statusCode := 200, headers := [("Content-Type", HVal.str "text/html")],
          cookies := [], body := .str "x", isBinary := false })).lookup "Content-Type" =
      some (stringifyHeader (HVal.str "text/html")) ∧
    (toLambdaResult (shapeResult
        { statusCode := 200, headers := [("Content-Type", HVal.str "text/html")],
          cookies := [], body := .str "x", isBinary := false })).headers.lookup
        "Content-Type" = some (HVal.str "text/html")) :=
  ⟨(c6_amended _ (by decide)).1 rfl,
   (c6_amended _ (by decide)).2 (HVal.str "text/html") rfl (by decide)⟩

end Apimda
